import Mathlib

/-!
Verification of the booking engine of a tea-ceremony lesson reservation
application (source file HP4.py).  The data layer keeps two tables in an
external spreadsheet: a schedule table of lesson slots and a bookings table
of reservation records.  The definitions below are shallow embeddings of
the Python functions normalize_date, normalize_time, add_booking,
remove_booking, admin_create_slot and admin_delete_slot, acting on explicit
table states.  All identifier comparisons are string comparisons, mirroring
the astype(str) and str(...) coercions in the source.
-/

namespace Sado

/-! ### Python-style string helpers -/

/-- Splits a character list at every occurrence of the separator, as the
Python str.split method with an explicit separator does: the result always
has one more group than there are separators. -/
def splitOnChar (c : Char) : List Char → List (List Char)
  | [] => [[]]
  | x :: xs =>
    let r := splitOnChar c xs
    if x == c then [] :: r
    else
      match r with
      | [] => [[x]]
      | g :: gs => (x :: g) :: gs

/-- Python str.strip: drop whitespace from both ends. -/
def pyStrip (cs : List Char) : List Char :=
  ((cs.dropWhile Char.isWhitespace).reverse.dropWhile Char.isWhitespace).reverse

/-- Numeric value of a digit list. -/
def digitsVal (cs : List Char) : Nat :=
  cs.foldl (fun a c => a * 10 + (c.toNat - 48)) 0

/-- Parses a nonempty all-digit character list, as the Python isdigit test
followed by int conversion. -/
def parseNat (cs : List Char) : Option Nat :=
  if !cs.isEmpty && cs.all Char.isDigit then some (digitsVal cs) else none

/-- Models Python int(str): optional surrounding whitespace and sign, then
decimal digits; none when the text is not a valid integer literal (the
ValueError case). -/
def pyInt (cs : List Char) : Option Int :=
  match pyStrip cs with
  | '-' :: rest => (parseNat rest).map (fun n => -(n : Int))
  | '+' :: rest => (parseNat rest).map (fun n => (n : Int))
  | t => (parseNat t).map (fun n => (n : Int))

/-- Python zero-padding format of width two on a natural number. -/
def pad2 (n : Nat) : String := if n < 10 then "0" ++ toString n else toString n

/-- Python zero-padding format of width two on an integer; the sign counts
toward the width. -/
def pad2i (n : Int) : String :=
  if (toString n).length < 2 then "0" ++ toString n else toString n

/-- strftime zero-pads the year to four digits. -/
def pad4 (n : Nat) : String :=
  if n < 10 then "000" ++ toString n
  else if n < 100 then "00" ++ toString n
  else if n < 1000 then "0" ++ toString n
  else toString n

/-- Models one numeric strptime field: one or two characters, all digits,
value at most maxv. -/
def timeField (maxv : Nat) (cs : List Char) : Option Nat :=
  if cs.length == 1 || cs.length == 2 then
    match parseNat cs with
    | some n => if n ≤ maxv then some n else none
    | none => none
  else none

/-- Models parsing with the hour-minute-second strptime format: exactly
three colon-separated numeric fields (seconds are validated and then
discarded by the strftime call in the source). -/
def strptimeHMS (cs : List Char) : Option (Nat × Nat) :=
  match splitOnChar ':' cs with
  | [h, m, s] =>
    match timeField 23 h, timeField 59 m, timeField 61 s with
    | some hv, some mv, some _ => some (hv, mv)
    | _, _, _ => none
  | _ => none

/-- Models parsing with the hour-minute strptime format: exactly two
colon-separated numeric fields. -/
def strptimeHM (cs : List Char) : Option (Nat × Nat) :=
  match splitOnChar ':' cs with
  | [h, m] =>
    match timeField 23 h, timeField 59 m with
    | some hv, some mv => some (hv, mv)
    | _, _ => none
  | _ => none

/-- strftime output in zero-padded hour-minute form. -/
def fmtHM (h m : Nat) : String := pad2 h ++ ":" ++ pad2 m

/-- Shallow embedding of normalize_time from HP4.py.  The result is none
exactly when the Python function raises an uncaught exception: the manual
colon-split fallback applies int() to the first two fields with no
enclosing try block, so a non-numeric field raises ValueError there. -/
def normalize_time (time_val : String) : Option String :=
  let s := pyStrip time_val.data
  match strptimeHMS s with
  | some (h, m) => some (fmtHM h m)
  | none =>
    match strptimeHM s with
    | some (h, m) => some (fmtHM h m)
    | none =>
      if s.contains ':' then
        match splitOnChar ':' s with
        | p0 :: p1 :: _ =>
          match pyInt p0, pyInt p1 with
          | some a, some b => some (pad2i a ++ ":" ++ pad2i b)
          | _, _ => none
        | _ => some (String.mk s)
      else some (String.mk s)

/-- Gregorian leap-year test. -/
def isLeapYear (y : Nat) : Bool := (y % 4 == 0 && y % 100 != 0) || y % 400 == 0

/-- Days in a month of the Gregorian calendar. -/
def daysInMonth (y m : Nat) : Nat :=
  if m == 2 then (if isLeapYear y then 29 else 28)
  else if m == 4 || m == 6 || m == 9 || m == 11 then 30
  else 31

/-- Models the flexible date parser the source calls, on the year-first
date forms the application stores: a four-digit year, then month and day of
one or two digits, separated uniformly by slash or hyphen, forming a valid
calendar date.  Other textual forms are treated as parse failures, which
normalize_date passes through unchanged. -/
def parseDateYMD (cs : List Char) : Option (Nat × Nat × Nat) :=
  let parts := if cs.contains '/' then splitOnChar '/' cs else splitOnChar '-' cs
  match parts with
  | [y, m, d] =>
    match (if y.length == 4 then parseNat y else none),
          (if m.length == 1 || m.length == 2 then parseNat m else none),
          (if d.length == 1 || d.length == 2 then parseNat d else none) with
    | some yv, some mv, some dv =>
      if 1 ≤ mv ∧ mv ≤ 12 ∧ 1 ≤ dv ∧ dv ≤ daysInMonth yv mv then some (yv, mv, dv)
      else none
    | _, _, _ => none
  | _ => none

/-- Shallow embedding of normalize_date from HP4.py.  The whole body of the
Python function sits inside a try block whose bare except returns the
stripped input, so the result is always some. -/
def normalize_date (date_val : String) : Option String :=
  let s := pyStrip date_val.data
  match parseDateYMD s with
  | some (y, m, d) => some (pad4 y ++ "-" ++ pad2 m ++ "-" ++ pad2 d)
  | none => some (String.mk s)

/-! ### Table model -/

/-- One row of the schedule worksheet, fields in sheet column order.
Identifier-like cells are carried as the strings that every comparison in
the source coerces them to. -/
structure SlotRow where
  id : String
  date : String
  time : String
  capacity : Int
  comment : String
deriving DecidableEq

/-- One row of the bookings worksheet. -/
structure BookingRow where
  appointment_id : String
  user_name : String
  booked_at : String
deriving DecidableEq

/-- The mutable state: the two worksheets the booking logic reads and
writes.  Header rows are left implicit and positions are zero-based. -/
structure DB where
  schedule : List SlotRow
  bookings : List BookingRow
deriving DecidableEq

/-- Outcomes of add_booking, one per return site of the source. -/
inductive BookResult where
  | ok
  | alreadyBooked
  | slotNotFound
  | slotFull
  | systemError
deriving DecidableEq

/-- Outcomes of remove_booking. -/
inductive CancelResult where
  | ok
  | notFound
deriving DecidableEq

/-! ### Booking operations -/

/-- The duplicate test of add_booking and the match test of remove_booking:
the slot reference is compared as a string, the member name exactly. -/
def bookingMatches (s user : String) (b : BookingRow) : Bool :=
  b.appointment_id == s && b.user_name == user

/-- Number of booking rows whose slot reference equals the given string. -/
def slotCount (bs : List BookingRow) (s : String) : Nat :=
  (bs.filter (fun b => b.appointment_id == s)).length

/-- Number of booking rows for one (slot, member) pair. -/
def pairCount (bs : List BookingRow) (s user : String) : Nat :=
  (bs.filter (bookingMatches s user)).length

/-- Shallow embedding of add_booking.  The three guards run in source
order: duplicate check first, then slot lookup, then capacity check, and
only then the single append.  When the schedule sheet has no data rows the
column access in the slot lookup raises a KeyError that the surrounding
except clause turns into the generic system-error outcome. -/
def add_booking (db : DB) (appt_id : Nat) (user_name now_ts : String) : DB × BookResult :=
  if db.bookings.any (bookingMatches (toString appt_id) user_name) then (db, .alreadyBooked)
  else if db.schedule.isEmpty then (db, .systemError)
  else
    match db.schedule.find? (fun r => r.id == toString appt_id) with
    | none => (db, .slotNotFound)
    | some slot =>
      if slot.capacity ≤ (slotCount db.bookings (toString appt_id) : Int) then (db, .slotFull)
      else
        ({ db with bookings := db.bookings ++ [⟨toString appt_id, user_name, now_ts⟩] }, .ok)

/-- First index satisfying the predicate, as the enumerate-and-break loop
of remove_booking computes it. -/
def findFirstIdx {α : Type} (p : α → Bool) : List α → Option Nat
  | [] => none
  | x :: xs => if p x then some 0 else (findFirstIdx p xs).map (· + 1)

/-- Shallow embedding of remove_booking: delete the first row matching the
pair, report not-found otherwise. -/
def remove_booking (db : DB) (appt_id : Nat) (user_name : String) : DB × CancelResult :=
  match findFirstIdx (bookingMatches (toString appt_id) user_name) db.bookings with
  | some k => ({ db with bookings := db.bookings.eraseIdx k }, .ok)
  | none => (db, .notFound)

/-- The id computation of admin_create_slot: collect the ids passing the
isdigit test, then maximum plus one, or 1 when there are none. -/
def next_slot_id (sched : List SlotRow) : Nat :=
  let ids := sched.filterMap (fun r => parseNat r.id.data)
  if ids.isEmpty then 1 else ids.foldl Nat.max 0 + 1

/-- Shallow embedding of admin_create_slot; the date and time arguments are
the already-formatted strftime strings of the form inputs. -/
def admin_create_slot (db : DB) (date_s time_s : String) (capacity : Int) (comment : String) :
    DB × Bool :=
  ({ db with
      schedule :=
        db.schedule ++ [⟨toString (next_slot_id db.schedule), date_s, time_s, capacity, comment⟩] },
    true)

/-- The cell values of a schedule row in sheet column order, as the
unrestricted worksheet find of admin_delete_slot sees them; the sheet
renders numeric cells as their decimal strings. -/
def slotCells (r : SlotRow) : List String :=
  [r.id, r.date, r.time, toString r.capacity, r.comment]

/-- The enumerate loop of admin_delete_slot collecting the positions of all
booking rows that reference the slot. -/
def matchIdxs {α : Type} (p : α → Bool) : List α → Nat → List Nat
  | [], _ => []
  | x :: xs, i => if p x then i :: matchIdxs p xs (i + 1) else matchIdxs p xs (i + 1)

/-- Shallow embedding of admin_delete_slot: the schedule row is located by
an unrestricted cell search (the worksheet find call has no column
restriction, so it scans all cells in row-major order), then every booking
row referencing the slot is deleted in descending position order; the
operation always reports success. -/
def admin_delete_slot (db : DB) (slot_id : Nat) : DB × Bool :=
  ({ schedule :=
      match findFirstIdx (fun r => (slotCells r).contains (toString slot_id)) db.schedule with
      | some k => db.schedule.eraseIdx k
      | none => db.schedule,
     bookings :=
      ((matchIdxs (fun b => b.appointment_id == toString slot_id) db.bookings 0).reverse).foldl
        (fun acc k => acc.eraseIdx k) db.bookings }, true)

/-! ### Concrete states used in closed evaluations -/

/-- A slot of capacity two with no bookings yet. -/
def slotA : SlotRow := ⟨"1", "2025-12-01", "10:00", 2, ""⟩

/-- State with one slot and an empty bookings table. -/
def dbEmptyBook : DB := ⟨[slotA], []⟩

/-- A slot of capacity one. -/
def slotB : SlotRow := ⟨"1", "2025-12-01", "10:00", 1, ""⟩

/-- State in which the single slot is at capacity. -/
def dbFullB : DB := ⟨[slotB], [⟨"1", "B", "ts"⟩]⟩

/-- State with a dangling booking: the bookings table references slot 2 but
the schedule table has no such slot. -/
def dbDangling : DB := ⟨[slotA], [⟨"2", "A", "ts"⟩]⟩

/-- State whose schedule ids are 1, 3 and 5. -/
def dbIds135 : DB :=
  ⟨[⟨"1", "2025-12-01", "10:00", 2, ""⟩, ⟨"3", "2025-12-08", "10:00", 2, ""⟩,
    ⟨"5", "2025-12-15", "10:00", 2, ""⟩], []⟩

/-- First slot of the cell-collision state: its capacity cell renders as
the string 2. -/
def slotClash1 : SlotRow := ⟨"1", "2025-12-01", "10:00", 2, ""⟩

/-- Second slot of the cell-collision state, the one with id 2. -/
def slotClash2 : SlotRow := ⟨"2", "2025-12-02", "10:00", 3, ""⟩

/-- State in which deleting slot 2 hits the capacity cell of slot 1
first. -/
def dbClash : DB := ⟨[slotClash1, slotClash2], [⟨"2", "A", "ts"⟩]⟩

/-- State with two booking rows for the same pair, plus an unrelated row in
front. -/
def dbTwoMatch : DB := ⟨[slotA], [⟨"9", "B", "t0"⟩, ⟨"1", "A", "t1"⟩, ⟨"1", "A", "t2"⟩]⟩

/-- The completely empty state. -/
def dbEmpty : DB := ⟨[], []⟩

/-- State holding exactly one booking, for the single slot. -/
def dbOneBook : DB := ⟨[slotA], [⟨"1", "A", "t1"⟩]⟩

/-! ### Helper lemmas -/

theorem isEmpty_false_of_ne_nil {α : Type} {l : List α} (h : l ≠ []) : l.isEmpty = false := by
  cases l with
  | nil => exact absurd rfl h
  | cons a as => rfl

theorem findFirstIdx_eq_none {α : Type} (p : α → Bool) :
    ∀ l : List α, (∀ x ∈ l, p x = false) → findFirstIdx p l = none
  | [], _ => rfl
  | a :: as, h => by
    have ha := h a (List.mem_cons_self a as)
    have ih := findFirstIdx_eq_none p as (fun x hx => h x (List.mem_cons_of_mem a hx))
    simp [findFirstIdx, ha, ih]

theorem findFirstIdx_first {α : Type} (p : α → Bool) (b : α) (post : List α) (hb : p b = true) :
    ∀ pre : List α, (∀ y ∈ pre, p y = false) →
      findFirstIdx p (pre ++ b :: post) = some pre.length
  | [], _ => by simp [findFirstIdx, hb]
  | a :: pre, h => by
    have ha := h a (List.mem_cons_self a pre)
    have ih := findFirstIdx_first p b post hb pre (fun y hy => h y (List.mem_cons_of_mem a hy))
    simp [findFirstIdx, ha, ih]

theorem eraseIdx_append_len {α : Type} (b : α) (post : List α) :
    ∀ pre : List α, (pre ++ b :: post).eraseIdx pre.length = pre ++ post
  | [] => rfl
  | a :: pre => by
    show a :: ((pre ++ b :: post).eraseIdx pre.length) = a :: (pre ++ post)
    rw [eraseIdx_append_len b post pre]

theorem exists_first_match {α : Type} (p : α → Bool) :
    ∀ l : List α, l.any p = true →
      ∃ pre b post, l = pre ++ b :: post ∧ (∀ y ∈ pre, p y = false) ∧ p b = true
  | [], h => by simp at h
  | a :: as, h => by
    by_cases ha : p a = true
    · exact ⟨[], a, as, rfl, by simp, ha⟩
    · have ha' : p a = false := by simpa using ha
      have has : as.any p = true := by simpa [List.any_cons, ha'] using h
      obtain ⟨pre, b, post, heq, hpre, hb⟩ := exists_first_match p as has
      refine ⟨a :: pre, b, post, by simp [heq], ?_, hb⟩
      intro y hy
      rcases List.mem_cons.mp hy with h1 | h2
      · exact h1 ▸ ha'
      · exact hpre y h2

theorem any_eq_false_iff {α : Type} (p : α → Bool) (l : List α) :
    l.any p = false ↔ ∀ x ∈ l, p x = false := by
  induction l with
  | nil => simp
  | cons a as ih => simp [List.any_cons, ih]

theorem pairCount_eq_zero_iff (bs : List BookingRow) (s u : String) :
    pairCount bs s u = 0 ↔ ∀ b ∈ bs, bookingMatches s u b = false := by
  simp [pairCount, List.length_eq_zero, List.filter_eq_nil_iff]

theorem pairCount_append (bs cs : List BookingRow) (s u : String) :
    pairCount (bs ++ cs) s u = pairCount bs s u + pairCount cs s u := by
  simp [pairCount, List.filter_append]

theorem pairCount_singleton (s u t : String) : pairCount [⟨s, u, t⟩] s u = 1 := by
  simp [pairCount, bookingMatches]

theorem pairCount_cons_true (b : BookingRow) (bs : List BookingRow) (s u : String)
    (hb : bookingMatches s u b = true) :
    pairCount (b :: bs) s u = pairCount bs s u + 1 := by
  simp [pairCount, List.filter_cons, hb, Nat.add_comm]

theorem slotCount_append_one (bs : List BookingRow) (s u t : String) :
    slotCount (bs ++ [⟨s, u, t⟩]) s = slotCount bs s + 1 := by
  simp [slotCount, List.filter_append]

theorem any_of_pairCount_pos (bs : List BookingRow) (s u : String)
    (h : 1 ≤ pairCount bs s u) : bs.any (bookingMatches s u) = true := by
  by_contra hn
  have h0 : pairCount bs s u = 0 :=
    (pairCount_eq_zero_iff bs s u).mpr ((any_eq_false_iff _ _).mp (by simpa using hn))
  omega

theorem pairCount_pos_of_any (bs : List BookingRow) (s u : String)
    (h : bs.any (bookingMatches s u) = true) : 1 ≤ pairCount bs s u := by
  by_contra hn
  have h0 : pairCount bs s u = 0 := by omega
  rw [(any_eq_false_iff _ _).mpr ((pairCount_eq_zero_iff bs s u).mp h0)] at h
  simp at h

/-! ### Branch characterizations of the two booking operations -/

theorem add_booking_dup (db : DB) (i : Nat) (u t : String)
    (h : db.bookings.any (bookingMatches (toString i) u) = true) :
    add_booking db i u t = (db, .alreadyBooked) := by
  simp [add_booking, h]

theorem add_booking_empty (db : DB) (i : Nat) (u t : String)
    (hdup : db.bookings.any (bookingMatches (toString i) u) = false)
    (hsched : db.schedule = []) :
    add_booking db i u t = (db, .systemError) := by
  simp [add_booking, hdup, hsched]

theorem add_booking_notfound (db : DB) (i : Nat) (u t : String)
    (hdup : db.bookings.any (bookingMatches (toString i) u) = false)
    (hne : db.schedule ≠ [])
    (hfind : db.schedule.find? (fun r => r.id == toString i) = none) :
    add_booking db i u t = (db, .slotNotFound) := by
  simp [add_booking, hdup, isEmpty_false_of_ne_nil hne, hfind]

theorem add_booking_full (db : DB) (i : Nat) (u t : String) (slot : SlotRow)
    (hdup : db.bookings.any (bookingMatches (toString i) u) = false)
    (hfind : db.schedule.find? (fun r => r.id == toString i) = some slot)
    (hcap : slot.capacity ≤ (slotCount db.bookings (toString i) : Int)) :
    add_booking db i u t = (db, .slotFull) := by
  have hne : db.schedule ≠ [] := by
    intro hnil
    rw [hnil] at hfind
    simp at hfind
  simp [add_booking, hdup, isEmpty_false_of_ne_nil hne, hfind, hcap]

theorem add_booking_success (db : DB) (i : Nat) (u t : String) (slot : SlotRow)
    (hdup : db.bookings.any (bookingMatches (toString i) u) = false)
    (hfind : db.schedule.find? (fun r => r.id == toString i) = some slot)
    (hcap : (slotCount db.bookings (toString i) : Int) < slot.capacity) :
    add_booking db i u t
      = ({ db with bookings := db.bookings ++ [⟨toString i, u, t⟩] }, .ok) := by
  have hne : db.schedule ≠ [] := by
    intro hnil
    rw [hnil] at hfind
    simp at hfind
  have hnot : ¬ slot.capacity ≤ (slotCount db.bookings (toString i) : Int) := not_le.mpr hcap
  simp [add_booking, hdup, isEmpty_false_of_ne_nil hne, hfind, hnot]

theorem add_booking_ok_inversion (db : DB) (i : Nat) (u t : String)
    (h : (add_booking db i u t).2 = .ok) :
    db.bookings.any (bookingMatches (toString i) u) = false
    ∧ ∃ slot, db.schedule.find? (fun r => r.id == toString i) = some slot
        ∧ (slotCount db.bookings (toString i) : Int) < slot.capacity
        ∧ add_booking db i u t
            = ({ db with bookings := db.bookings ++ [⟨toString i, u, t⟩] }, .ok) := by
  by_cases hdup : db.bookings.any (bookingMatches (toString i) u) = true
  · rw [add_booking_dup db i u t hdup] at h
    simp at h
  · have hdup' : db.bookings.any (bookingMatches (toString i) u) = false := by simpa using hdup
    by_cases hsched : db.schedule = []
    · rw [add_booking_empty db i u t hdup' hsched] at h
      simp at h
    · cases hfind : db.schedule.find? (fun r => r.id == toString i) with
      | none =>
        rw [add_booking_notfound db i u t hdup' hsched hfind] at h
        simp at h
      | some slot =>
        by_cases hcap : slot.capacity ≤ (slotCount db.bookings (toString i) : Int)
        · rw [add_booking_full db i u t slot hdup' hfind hcap] at h
          simp at h
        · have hlt := not_le.mp hcap
          exact ⟨hdup', slot, rfl, hlt, add_booking_success db i u t slot hdup' hfind hlt⟩

theorem remove_booking_notfound (db : DB) (i : Nat) (u : String)
    (h : ∀ b ∈ db.bookings, bookingMatches (toString i) u b = false) :
    remove_booking db i u = (db, .notFound) := by
  simp [remove_booking, findFirstIdx_eq_none _ _ h]

theorem remove_booking_first (db : DB) (i : Nat) (u : String)
    (pre : List BookingRow) (b : BookingRow) (post : List BookingRow)
    (hsplit : db.bookings = pre ++ b :: post)
    (hpre : ∀ y ∈ pre, bookingMatches (toString i) u y = false)
    (hb : bookingMatches (toString i) u b = true) :
    remove_booking db i u = ({ db with bookings := pre ++ post }, .ok) := by
  simp [remove_booking, hsplit, findFirstIdx_first _ b post hb pre hpre, eraseIdx_append_len]

theorem remove_booking_ok_inversion (db : DB) (i : Nat) (u : String)
    (h : (remove_booking db i u).2 = .ok) :
    db.bookings.any (bookingMatches (toString i) u) = true := by
  by_contra hn
  have hall : ∀ b ∈ db.bookings, bookingMatches (toString i) u b = false :=
    (any_eq_false_iff _ _).mp (by simpa using hn)
  rw [remove_booking_notfound db i u hall] at h
  simp at h

theorem remove_booking_pair_one (db : DB) (i : Nat) (u : String)
    (h1 : pairCount db.bookings (toString i) u = 1) :
    (remove_booking db i u).2 = .ok
    ∧ pairCount (remove_booking db i u).1.bookings (toString i) u = 0 := by
  have hany : db.bookings.any (bookingMatches (toString i) u) = true :=
    any_of_pairCount_pos _ _ _ (by omega)
  obtain ⟨pre, b, post, hsplit, hpre, hb⟩ := exists_first_match _ db.bookings hany
  rw [remove_booking_first db i u pre b post hsplit hpre hb]
  have hpre0 : pairCount pre (toString i) u = 0 := (pairCount_eq_zero_iff _ _ _).mpr hpre
  have hcount : pairCount db.bookings (toString i) u
      = pairCount pre (toString i) u + (pairCount post (toString i) u + 1) := by
    rw [hsplit, pairCount_append, pairCount_cons_true b post _ _ hb]
  refine ⟨rfl, ?_⟩
  show pairCount (pre ++ post) (toString i) u = 0
  rw [pairCount_append]
  omega

theorem le_foldl_max (l : List Nat) : ∀ a : Nat, a ≤ l.foldl Nat.max a := by
  induction l with
  | nil => intro a; exact le_refl a
  | cons b bs ih => intro a; exact le_trans (Nat.le_max_left a b) (ih (Nat.max a b))

theorem foldl_max_le_of_mem (l : List Nat) : ∀ a x : Nat, x ∈ l → x ≤ l.foldl Nat.max a := by
  induction l with
  | nil => intro a x hx; simp at hx
  | cons b bs ih =>
    intro a x hx
    rcases List.mem_cons.mp hx with rfl | h
    · exact le_trans (Nat.le_max_right a x) (le_foldl_max bs (Nat.max a x))
    · exact ih (Nat.max a b) x h

theorem foldl_max_mem (l : List Nat) :
    ∀ a : Nat, l.foldl Nat.max a ∈ l ∨ l.foldl Nat.max a = a := by
  induction l with
  | nil => intro a; right; rfl
  | cons b bs ih =>
    intro a
    rcases ih (Nat.max a b) with h | h
    · left; exact List.mem_cons_of_mem b h
    · rcases Nat.le_total a b with hab | hba
      · left
        show bs.foldl Nat.max (Nat.max a b) ∈ b :: bs
        rw [h]
        have hmb : Nat.max a b = b := Nat.max_eq_right hab
        rw [hmb]
        exact List.mem_cons_self b bs
      · right
        show bs.foldl Nat.max (Nat.max a b) = a
        rw [h]
        exact Nat.max_eq_left hba

/-! ### Claim theorems -/

/-- Claim C1: when reserve succeeds in a single-writer run, the number of
booking rows whose slot reference string-equals the id of the slot found
for the request is at most that slot capacity; and when the count already
reached capacity at decision time (no duplicate booking in the way), the
call fails with the slot-full outcome and appends nothing. -/
theorem add_booking_capacity_invariant (db : DB) (i : Nat) (u t : String) (slot : SlotRow)
    (hfind : db.schedule.find? (fun r => r.id == toString i) = some slot) :
    ((add_booking db i u t).2 = .ok →
      (slotCount (add_booking db i u t).1.bookings (toString i) : Int) ≤ slot.capacity)
    ∧ (db.bookings.any (bookingMatches (toString i) u) = false →
      slot.capacity ≤ (slotCount db.bookings (toString i) : Int) →
      add_booking db i u t = (db, .slotFull)) := by
  constructor
  · intro hok
    obtain ⟨hdup, slot', hfind', hlt, heq⟩ := add_booking_ok_inversion db i u t hok
    rw [hfind] at hfind'
    have hs : slot = slot' := Option.some.inj hfind'
    rw [heq]
    show (slotCount (db.bookings ++ [(⟨toString i, u, t⟩ : BookingRow)]) (toString i) : Int)
      ≤ slot.capacity
    rw [slotCount_append_one]
    rw [hs]
    push_cast
    omega
  · intro hdup hge
    exact add_booking_full db i u t slot hdup hfind hge

/-- Witness for C1 at concrete states: a successful reserve into a slot of
capacity two keeps the count at most two, and a reserve into a full slot of
capacity one fails with the slot-full outcome. -/
theorem add_booking_capacity_invariant_witness :
    ((slotCount (add_booking dbEmptyBook 1 "A" "t").1.bookings "1" : Int) ≤ 2)
    ∧ add_booking dbFullB 1 "A" "t" = (dbFullB, .slotFull) := by
  constructor
  · exact (add_booking_capacity_invariant dbEmptyBook 1 "A" "t" slotA (by decide)).1 (by decide)
  · exact (add_booking_capacity_invariant dbFullB 1 "A" "t" slotB (by decide)).2 (by decide)
      (by decide)

/-- Claim C2: the two-state machine of one (slot, member) pair.  Reserve on
an unbooked pair with free capacity succeeds and books the pair; reserve on
a booked pair fails with the already-booked outcome and changes nothing;
cancel on a pair booked exactly once succeeds and unbooks it; cancel on an
unbooked pair fails with the not-found outcome and changes nothing; two
consecutive reserves yield success then already-booked, and two consecutive
cancels of a singly booked pair yield success then not-found. -/
theorem booking_pair_state_machine (db : DB) (i : Nat) (u t t2 : String) :
    (∀ slot, pairCount db.bookings (toString i) u = 0 →
      db.schedule.find? (fun r => r.id == toString i) = some slot →
      (slotCount db.bookings (toString i) : Int) < slot.capacity →
      (add_booking db i u t).2 = .ok
        ∧ pairCount (add_booking db i u t).1.bookings (toString i) u = 1)
    ∧ (1 ≤ pairCount db.bookings (toString i) u → add_booking db i u t = (db, .alreadyBooked))
    ∧ (pairCount db.bookings (toString i) u = 1 →
      (remove_booking db i u).2 = .ok
        ∧ pairCount (remove_booking db i u).1.bookings (toString i) u = 0)
    ∧ (pairCount db.bookings (toString i) u = 0 → remove_booking db i u = (db, .notFound))
    ∧ ((add_booking db i u t).2 = .ok →
      (add_booking (add_booking db i u t).1 i u t2).2 = .alreadyBooked)
    ∧ (pairCount db.bookings (toString i) u ≤ 1 → (remove_booking db i u).2 = .ok →
      (remove_booking (remove_booking db i u).1 i u).2 = .notFound) := by
  refine ⟨?_, ?_, ?_, ?_, ?_, ?_⟩
  · intro slot hp0 hfind hcap
    have hdup : db.bookings.any (bookingMatches (toString i) u) = false :=
      (any_eq_false_iff _ _).mpr ((pairCount_eq_zero_iff _ _ _).mp hp0)
    rw [add_booking_success db i u t slot hdup hfind hcap]
    refine ⟨rfl, ?_⟩
    show pairCount (db.bookings ++ [(⟨toString i, u, t⟩ : BookingRow)]) (toString i) u = 1
    rw [pairCount_append, pairCount_singleton]
    omega
  · intro h1
    exact add_booking_dup db i u t (any_of_pairCount_pos _ _ _ h1)
  · intro h1
    exact remove_booking_pair_one db i u h1
  · intro h0
    exact remove_booking_notfound db i u ((pairCount_eq_zero_iff _ _ _).mp h0)
  · intro hok
    obtain ⟨hdup, slot, hfind, hlt, heq⟩ := add_booking_ok_inversion db i u t hok
    rw [heq]
    have hany : (db.bookings ++ [(⟨toString i, u, t⟩ : BookingRow)]).any
        (bookingMatches (toString i) u) = true := by
      apply any_of_pairCount_pos
      rw [pairCount_append, pairCount_singleton]
      omega
    rw [add_booking_dup _ i u t2 hany]
  · intro hle hok
    have hany := remove_booking_ok_inversion db i u hok
    have h1 : pairCount db.bookings (toString i) u = 1 := by
      have := pairCount_pos_of_any _ _ _ hany
      omega
    have h2 := (remove_booking_pair_one db i u h1).2
    rw [remove_booking_notfound (remove_booking db i u).1 i u
      ((pairCount_eq_zero_iff _ _ _).mp h2)]

/-- Witness for C2: all six transitions exercised on concrete states with
one slot of capacity two. -/
theorem booking_pair_state_machine_witness :
    ((add_booking dbEmptyBook 1 "A" "t").2 = .ok
      ∧ pairCount (add_booking dbEmptyBook 1 "A" "t").1.bookings "1" "A" = 1)
    ∧ add_booking dbTwoMatch 1 "A" "t" = (dbTwoMatch, .alreadyBooked)
    ∧ ((remove_booking dbOneBook 1 "A").2 = .ok
      ∧ pairCount (remove_booking dbOneBook 1 "A").1.bookings "1" "A" = 0)
    ∧ remove_booking dbEmptyBook 1 "A" = (dbEmptyBook, .notFound)
    ∧ (add_booking (add_booking dbEmptyBook 1 "A" "t").1 1 "A" "t2").2 = .alreadyBooked
    ∧ (remove_booking (remove_booking dbOneBook 1 "A").1 1 "A").2 = .notFound := by
  refine ⟨?_, ?_, ?_, ?_, ?_, ?_⟩
  · exact (booking_pair_state_machine dbEmptyBook 1 "A" "t" "t2").1 slotA (by decide) (by decide)
      (by decide)
  · exact (booking_pair_state_machine dbTwoMatch 1 "A" "t" "t2").2.1 (by decide)
  · exact (booking_pair_state_machine dbOneBook 1 "A" "t" "t2").2.2.1 (by decide)
  · exact (booking_pair_state_machine dbEmptyBook 1 "A" "t" "t2").2.2.2.1 (by decide)
  · exact (booking_pair_state_machine dbEmptyBook 1 "A" "t" "t2").2.2.2.2.1 (by decide)
  · exact (booking_pair_state_machine dbOneBook 1 "A" "t" "t2").2.2.2.2.2 (by decide) (by decide)

/-- Claim C3 counterexample: in a state whose schedule has no slot with id
2 but whose bookings table holds a dangling record (2, A), the reserve call
for that pair returns the already-booked outcome, not slot-not-found: the
source runs the duplicate guard before the slot-existence check. -/
theorem reserve_dangling_booking_counterexample :
    (∀ r ∈ dbDangling.schedule, r.id ≠ "2")
    ∧ add_booking dbDangling 2 "A" "t" = (dbDangling, .alreadyBooked)
    ∧ (add_booking dbDangling 2 "A" "t").2 ≠ .slotNotFound := by decide

/-- Claim C3 as amended: reserve returns slot-not-found whenever no
schedule row has the requested id, provided the caller has no existing
booking record for that slot id (otherwise the duplicate guard answers
first) and the schedule table is nonempty (otherwise the pandas column
access fails and a generic system error is reported). -/
theorem reserve_slot_not_found_amended (db : DB) (i : Nat) (u t : String)
    (hne : db.schedule ≠ [])
    (hid : ∀ r ∈ db.schedule, (r.id == toString i) = false)
    (hnodup : ∀ b ∈ db.bookings, bookingMatches (toString i) u b = false) :
    add_booking db i u t = (db, .slotNotFound) := by
  have hdup := (any_eq_false_iff _ _).mpr hnodup
  have hfind : db.schedule.find? (fun r => r.id == toString i) = none :=
    List.find?_eq_none.mpr (fun r hr => by simp [hid r hr])
  exact add_booking_notfound db i u t hdup hne hfind

/-- Witness for the amended C3: requesting slot 2 in a state that only has
slot 1 and no booking for the pair yields slot-not-found. -/
theorem reserve_slot_not_found_amended_witness :
    add_booking dbEmptyBook 2 "A" "t" = (dbEmptyBook, .slotNotFound) :=
  reserve_slot_not_found_amended dbEmptyBook 2 "A" "t" (by decide) (by decide) (by decide)

/-- Claim C4 evaluated at a failing input: deleting slot 2 in a state where
the capacity cell of the earlier slot 1 also renders as the string 2 makes
the unrestricted cell search hit that cell first, so the row with id 1 is
deleted, the row with id 2 survives, and the call still reports success
(the booking cascade itself is correct). -/
theorem admin_delete_slot_wrong_row_eval :
    admin_delete_slot dbClash 2 = (⟨[slotClash2], []⟩, true)
    ∧ ∃ r ∈ (admin_delete_slot dbClash 2).1.schedule, r.id = "2" := by decide

/-- Claim C5: when every stored schedule id is a digit string, the created
slot is appended with id equal to one plus the maximum existing id, and 1
when the table is empty; gap-filling never happens. -/
theorem admin_create_slot_max_plus_one (db : DB) (date_s time_s : String) (capacity : Int)
    (comment : String) (h : ∀ r ∈ db.schedule, (parseNat r.id.data).isSome = true) :
    (admin_create_slot db date_s time_s capacity comment).1.schedule
      = db.schedule
        ++ [⟨toString (next_slot_id db.schedule), date_s, time_s, capacity, comment⟩]
    ∧ (db.schedule = [] → next_slot_id db.schedule = 1)
    ∧ (db.schedule ≠ [] →
        ∃ m, next_slot_id db.schedule = m + 1
          ∧ (∃ r ∈ db.schedule, parseNat r.id.data = some m)
          ∧ ∀ r ∈ db.schedule, ∀ n, parseNat r.id.data = some n → n ≤ m) := by
  refine ⟨rfl, ?_, ?_⟩
  · intro hnil
    simp [next_slot_id, hnil]
  · intro hne
    obtain ⟨r0, rs, hsched⟩ : ∃ r0 rs, db.schedule = r0 :: rs := by
      cases hs : db.schedule with
      | nil => exact absurd hs hne
      | cons a as => exact ⟨a, as, rfl⟩
    obtain ⟨n0, hn0⟩ := Option.isSome_iff_exists.mp
      (h r0 (by rw [hsched]; exact List.mem_cons_self r0 rs))
    have hmem0 : n0 ∈ db.schedule.filterMap (fun r => parseNat r.id.data) :=
      List.mem_filterMap.mpr ⟨r0, by rw [hsched]; exact List.mem_cons_self r0 rs, hn0⟩
    have hne' : db.schedule.filterMap (fun r => parseNat r.id.data) ≠ [] := by
      intro hnil
      rw [hnil] at hmem0
      simp at hmem0
    have hMmem : (db.schedule.filterMap (fun r => parseNat r.id.data)).foldl Nat.max 0
        ∈ db.schedule.filterMap (fun r => parseNat r.id.data) := by
      rcases foldl_max_mem (db.schedule.filterMap (fun r => parseNat r.id.data)) 0 with h1 | h1
      · exact h1
      · have hle := foldl_max_le_of_mem (db.schedule.filterMap (fun r => parseNat r.id.data))
          0 n0 hmem0
        rw [h1] at hle ⊢
        have : n0 = 0 := Nat.le_zero.mp hle
        rw [← this]
        exact hmem0
    obtain ⟨r1, hr1, hval⟩ := List.mem_filterMap.mp hMmem
    refine ⟨(db.schedule.filterMap (fun r => parseNat r.id.data)).foldl Nat.max 0, ?_, ?_, ?_⟩
    · simp [next_slot_id, isEmpty_false_of_ne_nil hne']
    · exact ⟨r1, hr1, hval⟩
    · intro r hr n hn
      exact foldl_max_le_of_mem _ 0 n (List.mem_filterMap.mpr ⟨r, hr, hn⟩)

/-- Witness for C5: with existing ids 1, 3 and 5 the created slot receives
id 6, not the gap value 2. -/
theorem admin_create_slot_max_plus_one_witness :
    (admin_create_slot dbIds135 "2025-12-22" "10:00" 2 "").1.schedule
      = dbIds135.schedule ++ [⟨"6", "2025-12-22", "10:00", 2, ""⟩]
    ∧ next_slot_id dbIds135.schedule = 6 := by
  have h := admin_create_slot_max_plus_one dbIds135 "2025-12-22" "10:00" 2 "" (by decide)
  exact ⟨h.1, by decide⟩

/-- Claim C6: cancel removes exactly the first booking row in stored order
whose slot reference string-equals the slot id and whose member name
matches exactly, leaving every other row in place; with no matching row it
returns the not-found outcome and changes nothing. -/
theorem remove_booking_first_match_only (db : DB) (i : Nat) (u : String) :
    ((∀ b ∈ db.bookings, bookingMatches (toString i) u b = false) →
      remove_booking db i u = (db, .notFound))
    ∧ (∀ pre b post, db.bookings = pre ++ b :: post →
      (∀ y ∈ pre, bookingMatches (toString i) u y = false) →
      bookingMatches (toString i) u b = true →
      remove_booking db i u = ({ db with bookings := pre ++ post }, .ok)) :=
  ⟨remove_booking_notfound db i u,
    fun pre b post h1 h2 h3 => remove_booking_first db i u pre b post h1 h2 h3⟩

/-- Witness for C6: with two rows for the pair and an unrelated row first,
cancel removes only the earlier matching row. -/
theorem remove_booking_first_match_only_witness :
    remove_booking dbTwoMatch 1 "A"
      = ({ dbTwoMatch with bookings := [⟨"9", "B", "t0"⟩, ⟨"1", "A", "t2"⟩] }, .ok) :=
  (remove_booking_first_match_only dbTwoMatch 1 "A").2 [⟨"9", "B", "t0"⟩] ⟨"1", "A", "t1"⟩
    [⟨"1", "A", "t2"⟩] (by decide) (by decide) (by decide)

/-- Claim C7 is a code bug: normalize_date is total (its whole body is
guarded by a bare except), but normalize_time is not, because the manual
colon-split fallback applies int() outside any try block; on the input
ab:cd both strptime formats fail, the fallback runs, and int raises an
uncaught ValueError instead of passing the input through. -/
theorem normalize_time_uncaught_value_error :
    normalize_time "ab:cd" = none ∧ ∀ s : String, (normalize_date s).isSome = true := by
  constructor
  · decide
  · intro s
    simp only [normalize_date]
    split <;> simp

/-- Claim C8: the date 2025/12/2 normalizes to 2025-12-02 and the time 9:0
normalizes to 09:00. -/
theorem normalization_examples :
    normalize_date "2025/12/2" = some "2025-12-02"
    ∧ normalize_time "9:0" = some "09:00" := by decide

/-- Claim C9: every failing reserve call leaves both tables exactly as they
were; all three guards precede the single append. -/
theorem add_booking_failure_preserves_state (db : DB) (i : Nat) (u t : String)
    (h : (add_booking db i u t).2 ≠ .ok) : (add_booking db i u t).1 = db := by
  revert h
  unfold add_booking
  split
  · intro _; rfl
  · split
    · intro _; rfl
    · split
      · intro _; rfl
      · split
        · intro _; rfl
        · intro h; exact absurd rfl h

/-- Witness for C9: reserving in the empty state fails (system error) and
leaves the state unchanged. -/
theorem add_booking_failure_preserves_state_witness :
    (add_booking dbEmpty 1 "A" "t").2 ≠ .ok ∧ (add_booking dbEmpty 1 "A" "t").1 = dbEmpty :=
  ⟨by decide, add_booking_failure_preserves_state dbEmpty 1 "A" "t" (by decide)⟩

/-- Claim C10: reserve and cancel never touch the schedule table; only the
bookings table can change. -/
theorem booking_ops_preserve_schedule (db : DB) (i : Nat) (u t : String) :
    (add_booking db i u t).1.schedule = db.schedule
    ∧ (remove_booking db i u).1.schedule = db.schedule := by
  constructor
  · unfold add_booking
    split
    · rfl
    · split
      · rfl
      · split
        · rfl
        · split
          · rfl
          · rfl
  · unfold remove_booking
    split
    · rfl
    · rfl

end Sado
